import Mathlib

/-!
Verification of the HashSure document-hasher core
(src/document_hasher_rust_server/src/lib.rs).

The repository exposes two functions, `calculate_sha256_bytes` and
`calculate_hmac_sha256`, that delegate to the standard SHA-256 and
HMAC-SHA256 algorithms and hex-encode the result.  Byte sequences are
embedded as `List Nat` (each element an 8-bit value), 32-bit words as
`Nat` reduced modulo 2^32 at every arithmetic step, and the fallible
Rust return type `PyResult<String>` as `Except String String`.
-/

set_option maxRecDepth 40000

/-- 2^32, the modulus for 32-bit word arithmetic. -/
def w32 : Nat := 4294967296

/-- 32-bit modular addition. -/
def add32 (a b : Nat) : Nat := (a + b) % w32

/-- Right rotation of a 32-bit word by `n` places. -/
def rotr (n x : Nat) : Nat := ((x >>> n) ||| (x <<< (32 - n))) % w32

/-- Logical right shift of a 32-bit word. -/
def shr32 (n x : Nat) : Nat := x >>> n

/-- Modelled from the spec: the SHA-256 big sigma-0 function of FIPS 180-4. -/
def bsig0 (x : Nat) : Nat := (rotr 2 x) ^^^ (rotr 13 x) ^^^ (rotr 22 x)

/-- Modelled from the spec: the SHA-256 big sigma-1 function of FIPS 180-4. -/
def bsig1 (x : Nat) : Nat := (rotr 6 x) ^^^ (rotr 11 x) ^^^ (rotr 25 x)

/-- Modelled from the spec: the SHA-256 small sigma-0 function of FIPS 180-4. -/
def ssig0 (x : Nat) : Nat := (rotr 7 x) ^^^ (rotr 18 x) ^^^ (shr32 3 x)

/-- Modelled from the spec: the SHA-256 small sigma-1 function of FIPS 180-4. -/
def ssig1 (x : Nat) : Nat := (rotr 17 x) ^^^ (rotr 19 x) ^^^ (shr32 10 x)

/-- Modelled from the spec: the SHA-256 choice function; complement taken by
xor with the all-ones 32-bit word. -/
def chf (x y z : Nat) : Nat := (x &&& y) ^^^ ((x ^^^ 4294967295) &&& z)

/-- Modelled from the spec: the SHA-256 majority function. -/
def majf (x y z : Nat) : Nat := (x &&& y) ^^^ (x &&& z) ^^^ (y &&& z)

/-- Modelled from the spec: the 64 SHA-256 round constants of FIPS 180-4,
written in decimal, four per line, in standard order. -/
def sha256K : List Nat :=
  [1116352408, 1899447441, 3049323471, 3921009573,
   961987163, 1508970993, 2453635748, 2870763221,
   3624381080, 310598401, 607225278, 1426881987,
   1925078388, 2162078206, 2614888103, 3248222580,
   3835390401, 4022224774, 264347078, 604807628,
   770255983, 1249150122, 1555081692, 1996064986,
   2554220882, 2821834349, 2952996808, 3210313671,
   3336571891, 3584528711, 113926993, 338241895,
   666307205, 773529912, 1294757372, 1396182291,
   1695183700, 1986661051, 2177026350, 2456956037,
   2730485921, 2820302411, 3259730800, 3345764771,
   3516065817, 3600352804, 4094571909, 275423344,
   430227734, 506948616, 659060556, 883997877,
   958139571, 1322822218, 1537002063, 1747873779,
   1955562222, 2024104815, 2227730452, 2361852424,
   2428436474, 2756734187, 3204031479, 3329325298]

/-- The eight 32-bit working variables of the SHA-256 state. -/
structure Hash8 where
  a : Nat
  b : Nat
  c : Nat
  d : Nat
  e : Nat
  f : Nat
  g : Nat
  h : Nat
deriving DecidableEq

/-- Modelled from the spec: the eight SHA-256 initial hash values of
FIPS 180-4, in decimal. -/
def sha256IV : Hash8 :=
  ⟨1779033703, 3144134277, 1013904242, 2773480762,
   1359893119, 2600822924, 528734635, 1541459225⟩

/-- Modelled from the spec: extend the 16-word message block to the 64-word
message schedule; each step appends one word to the list. -/
def extendLoop : Nat → List Nat → List Nat
  | 0, ws => ws
  | n + 1, ws =>
      let t := ws.length
      let w := add32 (add32 (ssig1 (ws.getD (t - 2) 0)) (ws.getD (t - 7) 0))
                     (add32 (ssig0 (ws.getD (t - 15) 0)) (ws.getD (t - 16) 0))
      extendLoop n (ws ++ [w])

/-- Modelled from the spec: one SHA-256 round with round constant `k` and
schedule word `w`. -/
def sha256Round (k w : Nat) (s : Hash8) : Hash8 :=
  let t1 := add32 (add32 (add32 s.h (bsig1 s.e)) (add32 (chf s.e s.f s.g) k)) w
  let t2 := add32 (bsig0 s.a) (majf s.a s.b s.c)
  ⟨add32 t1 t2, s.a, s.b, s.c, add32 s.d t1, s.e, s.f, s.g⟩

/-- Run the 64 SHA-256 rounds, consuming constants and schedule words in step. -/
def sha256Rounds : List Nat → List Nat → Hash8 → Hash8
  | k :: ks, w :: ws, s => sha256Rounds ks ws (sha256Round k w s)
  | _, _, s => s

/-- Modelled from the spec: the SHA-256 compression function on one
16-word block, adding the round output back into the chaining state. -/
def sha256Compress (s : Hash8) (block : List Nat) : Hash8 :=
  let t := sha256Rounds sha256K (extendLoop 48 block) s
  ⟨add32 s.a t.a, add32 s.b t.b, add32 s.c t.c, add32 s.d t.d,
   add32 s.e t.e, add32 s.f t.f, add32 s.g t.g, add32 s.h t.h⟩

/-- The eight big-endian bytes of the 64-bit message bit length. -/
def lenBytes (L : Nat) : List Nat :=
  [((8 * L) >>> 56) % 256, ((8 * L) >>> 48) % 256, ((8 * L) >>> 40) % 256,
   ((8 * L) >>> 32) % 256, ((8 * L) >>> 24) % 256, ((8 * L) >>> 16) % 256,
   ((8 * L) >>> 8) % 256, (8 * L) % 256]

/-- Modelled from the spec: FIPS 180-4 message padding; append the byte 0x80,
zero bytes up to 56 mod 64, then the 64-bit big-endian bit length. -/
def padMessage (msg : List Nat) : List Nat :=
  msg ++ [128] ++ List.replicate ((120 - ((msg.length + 1) % 64)) % 64) 0 ++
    lenBytes msg.length

/-- Group bytes four at a time into big-endian 32-bit words. -/
def bytesToWords : List Nat → List Nat
  | b0 :: b1 :: b2 :: b3 :: rest =>
      (b0 * 16777216 + b1 * 65536 + b2 * 256 + b3) :: bytesToWords rest
  | _ => []

/-- Split a byte list into 64-byte blocks; the fuel argument is an upper
bound on the number of steps, so the recursion is structural. -/
def toBlocksFuel : Nat → List Nat → List (List Nat)
  | 0, _ => []
  | _ + 1, [] => []
  | n + 1, l => l.take 64 :: toBlocksFuel n (l.drop 64)

/-- Split a byte list into 64-byte blocks. -/
def toBlocks (l : List Nat) : List (List Nat) := toBlocksFuel l.length l

/-- The four big-endian bytes of a 32-bit word. -/
def wordBytes (w : Nat) : List Nat :=
  [(w >>> 24) % 256, (w >>> 16) % 256, (w >>> 8) % 256, w % 256]

/-- Modelled from the spec: the full SHA-256 digest (FIPS 180-4) of a byte
sequence, as 32 raw bytes.  The algorithm itself lives in the sha2 crate
the repository delegates to; this definition follows section 4.1 of the spec. -/
def sha256 (data : List Nat) : List Nat :=
  let final := (toBlocks (padMessage data)).foldl
    (fun s b => sha256Compress s (bytesToWords b)) sha256IV
  wordBytes final.a ++ wordBytes final.b ++ wordBytes final.c ++ wordBytes final.d ++
  wordBytes final.e ++ wordBytes final.f ++ wordBytes final.g ++ wordBytes final.h

/-- Lowercase hexadecimal digit for a value below 16. -/
def hexDigitChar (n : Nat) : Char :=
  if n < 10 then Char.ofNat (48 + n) else Char.ofNat (87 + n)

/-- Two lowercase hex digits of one byte, most-significant nibble first. -/
def byteHex (b : Nat) : List Char := [hexDigitChar (b / 16), hexDigitChar (b % 16)]

/-- The character list of the lowercase hex encoding of a byte list. -/
def hexChars : List Nat → List Char
  | [] => []
  | b :: t => byteHex b ++ hexChars t

/-- Lowercase hex encoding of a byte list, as done by the hex crate and by
the LowerHex rendering used in lib.rs. -/
def hexEncode (l : List Nat) : String :=
  String.mk (hexChars l)

/-- A character that is a lowercase hexadecimal digit, 0-9 or a-f. -/
def isLowerHexChar (c : Char) : Bool :=
  decide ((48 ≤ c.toNat ∧ c.toNat ≤ 57) ∨ (97 ≤ c.toNat ∧ c.toNat ≤ 102))

/-- Embedding of `calculate_sha256_bytes` from lib.rs: hash the input bytes
with SHA-256 and return the lowercase hex string; the Ok branch is the only
one in the source. -/
def calculate_sha256_bytes (data : List Nat) : Except String String :=
  Except.ok (hexEncode (sha256 data))

/-- Modelled from the spec: RFC 2104 key normalization as performed inside
the hmac crate; a key longer than the 64-byte block is first hashed. -/
def normKey (key : List Nat) : List Nat :=
  if 64 < key.length then sha256 key else key

/-- The normalized key zero-padded to the 64-byte block size. -/
def hmacKeyBlock (key : List Nat) : List Nat :=
  normKey key ++ List.replicate (64 - (normKey key).length) 0

/-- Embedding of `calculate_hmac_sha256` from lib.rs: the HMAC-SHA256 tag of
the message under the key, hex-encoded.  The HMAC construction is modelled
from the spec (RFC 2104): outer and inner key pads from xor with 0x5c and
0x36, tag sha256(opad ++ sha256(ipad ++ message)).  Key setup in the hmac
crate accepts every byte-sequence key, so only the Ok branch is reachable. -/
def calculate_hmac_sha256 (secret_key_bytes message_bytes : List Nat) : Except String String :=
  Except.ok (hexEncode (sha256
    ((hmacKeyBlock secret_key_bytes).map (fun b => b ^^^ 0x5c) ++
      sha256 ((hmacKeyBlock secret_key_bytes).map (fun b => b ^^^ 0x36) ++ message_bytes))))

/-- The ASCII bytes of "The quick brown fox jumps over the lazy dog". -/
def foxBytes : List Nat :=
  (String.toList "The quick brown fox jumps over the lazy dog").map Char.toNat

/-- Modelled from the spec: the RFC 2104 HMAC-SHA256 construction written
step by step as the spec states it, normalizing the key by hashing when it
exceeds 64 bytes, zero-padding to 64 bytes, building the outer and inner
key pads by xor with 0x5c and 0x36, and hex-encoding the nested hash. -/
def hmac_rfc2104 (key msg : List Nat) : String :=
  let k0 := if 64 < key.length then sha256 key else key
  let kpad := k0 ++ List.replicate (64 - k0.length) 0
  let opadKey := kpad.map (fun b => b ^^^ 0x5c)
  let ipadKey := kpad.map (fun b => b ^^^ 0x36)
  hexEncode (sha256 (opadKey ++ sha256 (ipadKey ++ msg)))

/-! ### Supporting lemmas -/

theorem sha256_length (d : List Nat) : (sha256 d).length = 32 := by
  simp [sha256, wordBytes]

theorem wordBytes_lt (w : Nat) : ∀ b ∈ wordBytes w, b < 256 := by
  intro b hb
  simp only [wordBytes, List.mem_cons, List.not_mem_nil, or_false] at hb
  rcases hb with rfl | rfl | rfl | rfl <;> omega

theorem sha256_lt (d : List Nat) : ∀ b ∈ sha256 d, b < 256 := by
  intro b hb
  simp only [sha256, List.mem_append] at hb
  rcases hb with (((((((h | h) | h) | h) | h) | h) | h) | h) <;> exact wordBytes_lt _ b h

theorem hexChars_length (l : List Nat) : (hexChars l).length = 2 * l.length := by
  induction l with
  | nil => rfl
  | cons b t ih =>
      simp only [hexChars, byteHex, List.length_append, List.length_cons, List.length_nil, ih]
      omega

theorem hexEncode_length (l : List Nat) : (hexEncode l).length = 2 * l.length :=
  hexChars_length l

theorem hexDigitChar_ok : ∀ n, n < 16 → isLowerHexChar (hexDigitChar n) = true := by decide

theorem hexChars_ok (l : List Nat) (hl : ∀ b ∈ l, b < 256) :
    ∀ c ∈ hexChars l, isLowerHexChar c = true := by
  induction l with
  | nil => intro c hc; simp [hexChars] at hc
  | cons b t ih =>
      intro c hc
      have hb : b < 256 := hl b (by simp)
      simp only [hexChars, byteHex, List.cons_append, List.nil_append,
        List.mem_cons] at hc
      rcases hc with rfl | rfl | hc
      · exact hexDigitChar_ok _ (by omega)
      · exact hexDigitChar_ok _ (by omega)
      · exact ih (fun x hx => hl x (by simp [hx])) c hc

/-! ### Claim theorems -/

/-- C1: known-answer vectors for the digest function: the empty byte
sequence hashes to the standard empty-string SHA-256 digest, and the three
bytes of "abc" hash to the FIPS 180-4 test-vector value. -/
theorem sha256_known_answer_vectors :
    calculate_sha256_bytes [] =
      Except.ok "e3b0c44298fc1c149afbf4c8996fb92427ae41e4649b934ca495991b7852b855" ∧
    calculate_sha256_bytes [97, 98, 99] =
      Except.ok "ba7816bf8f01cfea414140de5dae2223b00361a396177a9cb410ff61f20015ad" := by
  exact ⟨by rfl, by rfl⟩

/-- C2: known-answer vector for the MAC function: key "key" and message
"The quick brown fox jumps over the lazy dog" produce the published
HMAC-SHA256 tag. -/
theorem hmac_known_answer_vector :
    calculate_hmac_sha256 [107, 101, 121] foxBytes =
      Except.ok "f7bc83f430538424b13298e6aa6fb143ef4d59a14946175997479dbc2d1a3cd8" := by
  rfl

/-- C3: for every key and message, `calculate_hmac_sha256` returns exactly
the explicit RFC 2104 construction built from the digest function: key
normalization, zero-padding to 64 bytes, xor with 0x5c and 0x36, and hex
encoding of sha256(outer_key_pad ++ sha256(inner_key_pad ++ message)). -/
theorem hmac_refines_rfc2104 (k m : List Nat) :
    calculate_hmac_sha256 k m = Except.ok (hmac_rfc2104 k m) := rfl

/-- C4: for every input to the digest function and every key and message to
the MAC function, the returned string has exactly 64 characters and every
character is a lowercase hexadecimal digit. -/
theorem output_hex_shape (d k m : List Nat) :
    ∃ s t, calculate_sha256_bytes d = Except.ok s ∧ calculate_hmac_sha256 k m = Except.ok t ∧
      s.length = 64 ∧ t.length = 64 ∧
      (∀ c ∈ s.data, isLowerHexChar c = true) ∧ (∀ c ∈ t.data, isLowerHexChar c = true) := by
  refine ⟨_, _, rfl, rfl, ?_, ?_, ?_, ?_⟩
  · rw [hexEncode_length, sha256_length]
  · rw [hexEncode_length, sha256_length]
  · exact hexChars_ok _ (sha256_lt d)
  · exact hexChars_ok _ (sha256_lt _)

/-- C5: the MAC function succeeds on every key, of any length, and every
message; the key-setup error branch is never taken. -/
theorem hmac_total (k m : List Nat) :
    ∃ t, calculate_hmac_sha256 k m = Except.ok t := ⟨_, rfl⟩

theorem normKey_sha256 (k : List Nat) : normKey (sha256 k) = sha256 k := by
  unfold normKey
  rw [if_neg (by rw [sha256_length]; omega)]

theorem hmacKeyBlock_long (k : List Nat) (hk : 64 < k.length) :
    hmacKeyBlock k = hmacKeyBlock (sha256 k) := by
  have h1 : normKey k = sha256 k := by unfold normKey; rw [if_pos hk]
  unfold hmacKeyBlock
  rw [h1, normKey_sha256]

/-- C6: for every key strictly longer than 64 bytes, the MAC of any message
under that key equals the MAC under the 32-byte SHA-256 digest of the key. -/
theorem hmac_long_key (k m : List Nat) (hk : 64 < k.length) :
    calculate_hmac_sha256 k m = calculate_hmac_sha256 (sha256 k) m := by
  unfold calculate_hmac_sha256
  rw [hmacKeyBlock_long k hk]

/-- C6 witness: a concrete 65-byte key. -/
theorem hmac_long_key_witness :
    64 < (List.replicate 65 1 : List Nat).length ∧
    calculate_hmac_sha256 (List.replicate 65 1) [] =
      calculate_hmac_sha256 (sha256 (List.replicate 65 1)) [] :=
  ⟨by decide, hmac_long_key (List.replicate 65 1) [] (by decide)⟩

/-- C7: the digest function is total: every byte sequence, the empty one
included, produces a result and never an error. -/
theorem sha256_total (d : List Nat) :
    ∃ s, calculate_sha256_bytes d = Except.ok s := ⟨_, rfl⟩

/-- C8: both functions are deterministic: two invocations on the same
arguments give the same result, the output depending only on the arguments,
which in this pure embedding is reflexivity of the defining functions. -/
theorem hash_deterministic (d k m : List Nat) :
    calculate_sha256_bytes d = calculate_sha256_bytes d ∧
    calculate_hmac_sha256 k m = calculate_hmac_sha256 k m := ⟨rfl, rfl⟩

theorem hmacKeyBlock_snoc_zero (k : List Nat) (hk : k.length < 64) :
    hmacKeyBlock (k ++ [0]) = hmacKeyBlock k := by
  have h1 : normKey (k ++ [0]) = k ++ [0] := by
    unfold normKey
    rw [if_neg (by simp only [List.length_append, List.length_cons, List.length_nil]; omega)]
  have h2 : normKey k = k := by
    unfold normKey
    rw [if_neg (by omega)]
  unfold hmacKeyBlock
  rw [h1, h2, List.append_assoc]
  congr 1
  have h3 : 64 - k.length = 64 - (k ++ [0]).length + 1 := by
    simp only [List.length_append, List.length_cons, List.length_nil]
    omega
  rw [h3, List.replicate_succ]
  rfl

theorem hmacKeyBlock_empty_eq_zeros :
    hmacKeyBlock [] = hmacKeyBlock (List.replicate 64 0) := by decide

/-- C10: for every key shorter than 64 bytes, appending a zero byte to the
key leaves the MAC of every message unchanged; in particular the empty key
and the 64-zero-byte key give the same tag on every message. -/
theorem hmac_trailing_zero_alias (k m : List Nat) (hk : k.length < 64) :
    calculate_hmac_sha256 (k ++ [0]) m = calculate_hmac_sha256 k m ∧
    calculate_hmac_sha256 [] m = calculate_hmac_sha256 (List.replicate 64 0) m := by
  constructor
  · unfold calculate_hmac_sha256
    rw [hmacKeyBlock_snoc_zero k hk]
  · unfold calculate_hmac_sha256
    rw [hmacKeyBlock_empty_eq_zeros]

/-- C10 witness: a concrete three-byte key and one-byte message. -/
theorem hmac_trailing_zero_alias_witness :
    ([1, 2, 3] : List Nat).length < 64 ∧
    (calculate_hmac_sha256 ([1, 2, 3] ++ [0]) [5] = calculate_hmac_sha256 [1, 2, 3] [5] ∧
     calculate_hmac_sha256 [] [5] = calculate_hmac_sha256 (List.replicate 64 0) [5]) :=
  ⟨by decide, hmac_trailing_zero_alias [1, 2, 3] [5] (by decide)⟩
